import Mathlib

/-!
Shallow embedding of the gioc IoC container's resolution engine
(src/gioc.go together with the helper revision holding
`getCurrentResolutionPath`, `updateResolutionPath`, `checkForCycle` and
`getCyclePath`, and the `ScopeContext` type with `Get`/`Set`/`Cleanup`).

Modelling decisions:
* `uintptr` factory keys, goroutine ids, instance identities and
  `*ScopeContext` heap pointers are all `Nat`.
* Go maps become association lists updated by overwrite (`setKey`), so
  `len` corresponds to list length.
* A factory is identified by its key; its behaviour is an `FBody`: a finite
  sequence of nested `IOC` calls followed by the construction of a fresh
  instance, drawn from a monotone allocator (`nextInst`), so two distinct
  factory invocations always produce distinct instance identities, and
  pointer equality of Go instances becomes `Nat` equality.
* `panic` becomes the `Res.panicked` constructor carrying the message and
  the global state at the moment of the panic (Go panics propagate while
  completed writes to global state persist).
* The interpreter is fuel-indexed (`Res.timeout` when fuel runs out);
  whenever a claim asserts termination the theorem shows the result is not
  `timeout` for every sufficiently large fuel.
* The execution is sequential on one goroutine (`gid`); the per-goroutine
  resolution-path map is still keyed by `gid` exactly as the source keys
  `resolutionPathMap` by goroutine id.
* `once.Do(initializeContainer)` re-creates the (still empty) maps on the
  very first call of the process, which is the identity on the empty
  initial state, so it is not modelled.  `runtime.SetFinalizer` is
  GC-driven, advisory and non-deterministic and is likewise out of the
  model.  The wall-clock component of a scope id is dropped: a scope id is
  rendered from the unique `scopeCounter` value alone.
* Type descriptors (`reflect.Type`) are the strings `env.tyName key`; the
  model is monotyped, so Go's type assertions always succeed and the
  `TypeMismatch` panics (not the subject of any claim) are unreachable.
-/

/-- Lifetimes, from the `Scope` constants of the source. -/
inductive Scope where
  | Singleton : Scope
  | Transient : Scope
  | Scoped : Scope
deriving DecidableEq, Repr

/-- Behaviour of a factory body: finitely many nested `IOC` calls (each with
its own variadic lifetime-argument list), then return a fresh instance. -/
inductive FBody where
  | ret : FBody
  | callThen : Nat → List Scope → FBody → FBody
deriving DecidableEq, Repr

/-- The factory environment: for each key, the body run by `fn()` and the
type name `reflect.TypeOf(instance).String()` of the instances it builds. -/
structure FEnv where
  body : Nat → FBody
  tyName : Nat → String

/-- `ScopeContext` of the source: scope id and the scope's instance map. -/
structure ScopeContext where
  sid : Nat
  insts : List (Nat × Nat)
deriving DecidableEq, Repr

/-- The container's global state: the singleton store (`instances`,
`types`, `scopes`), the per-goroutine resolution paths
(`resolutionPathMap`), the heap of `*ScopeContext` objects with the active
pointer (`currentScopeContext`), the scope-id counter, and the two
allocators of the model (fresh heap pointers, fresh instance ids). -/
structure GState where
  instances : List (Nat × Nat)
  types : List (Nat × String)
  scopes : List (Nat × Scope)
  paths : List (Nat × List Nat)
  scopeHeap : List (Nat × ScopeContext)
  currentScope : Option Nat
  scopeCounter : Nat
  nextPtr : Nat
  nextInst : Nat
deriving DecidableEq, Repr

/-- Association-list lookup (Go map read). -/
def lookupKey {α : Type} : List (Nat × α) → Nat → Option α
  | [], _ => none
  | (k, v) :: rest, k0 => if k = k0 then some v else lookupKey rest k0

/-- Association-list overwrite (Go map write). -/
def setKey {α : Type} : List (Nat × α) → Nat → α → List (Nat × α)
  | [], k, v => [(k, v)]
  | (k1, v1) :: rest, k, v =>
      if k1 = k then (k, v) :: rest else (k1, v1) :: setKey rest k v

/-- The calling goroutine's resolution path as a value (empty when the
goroutine has no entry yet). -/
def pathOf (st : GState) (gid : Nat) : List Nat :=
  (lookupKey st.paths gid).getD []

/-- `getCurrentResolutionPath`: read the goroutine's path, creating an
empty entry when absent (as the source stores the fresh empty path). -/
def getCurrentResolutionPath (gid : Nat) (st : GState) : List Nat × GState :=
  match lookupKey st.paths gid with
  | some p => (p, st)
  | none => ([], { st with paths := setKey st.paths gid [] })

/-- `updateResolutionPath`: overwrite the goroutine's path. -/
def updateResolutionPath (gid : Nat) (p : List Nat) (st : GState) : GState :=
  { st with paths := setKey st.paths gid p }

/-- `checkForCycle`: true iff the key already occurs in the calling
goroutine's resolution path. -/
def checkForCycle (gid key : Nat) (st : GState) : Bool × GState :=
  match getCurrentResolutionPath gid st with
  | (path, st1) => (path.contains key, st1)

/-- Rendering of one path entry in `getCyclePath`: the cached type name
when one is registered, `unknown(<key>)` otherwise. -/
def renderKey (st : GState) (k : Nat) : String :=
  match lookupKey st.types k with
  | some t => t
  | none => "unknown(" ++ toString k ++ ")"

/-- `getCyclePath`: `"empty path"` on the empty path; otherwise find the
first occurrence of the path's last element, drop everything before it and
render the remaining keys (Go's `fmt.Sprintf("%v", []string)` layout:
space-separated inside brackets). -/
def getCyclePath (gid : Nat) (st : GState) : String × GState :=
  match getCurrentResolutionPath gid st with
  | (path, st1) =>
    if path.isEmpty then ("empty path", st1)
    else
      let last := path.getLastD 0
      let cycleStart := path.findIdx (fun k => k = last)
      ("[" ++ " ".intercalate ((path.drop cycleStart).map (renderKey st1)) ++ "]", st1)

/-- `ScopeContext.Set` through the active pointer: overwrite the pointed-to
context's instance map entry. -/
def scopeSet (ptr key inst : Nat) (st : GState) : GState :=
  match lookupKey st.scopeHeap ptr with
  | some ctx =>
      { st with scopeHeap := setKey st.scopeHeap ptr { ctx with insts := setKey ctx.insts key inst } }
  | none => st

/-- Outcome of a call: normal return, propagating panic (each carrying the
global state), or fuel exhaustion of the interpreter (not a behaviour of
the source). -/
inductive Res (α : Type) where
  | ok : α → GState → Res α
  | panicked : String → GState → Res α
  | timeout : Res α
deriving DecidableEq, Repr

/-- Run a factory body given a way to perform nested `IOC` calls: execute
the nested calls in order (propagating panic and fuel exhaustion), then
allocate and return a fresh instance. -/
def runBody (call : Nat → List Scope → GState → Res Nat) :
    FBody → GState → Res Nat
  | .ret, st => .ok st.nextInst { st with nextInst := st.nextInst + 1 }
  | .callThen k args rest, st =>
    match call k args st with
    | .ok _ st1 => runBody call rest st1
    | .panicked m s => .panicked m s
    | .timeout => .timeout

/-- `IOC` (src/gioc.go:149-263), fuel-indexed.  Entry cycle check, then
lifetime dispatch: Transient runs the factory directly; Scoped consults
the active scope context (falling back to the Transient behaviour when no
scope is active); Singleton consults the store, and on a miss pushes the
key, runs the factory, restores the path, double-checks and stores the
instance together with its type descriptor and lifetime. -/
def IOC (env : FEnv) (gid : Nat) : Nat → Nat → List Scope → GState → Res Nat
  | 0, _, _, _ => .timeout
  | fuel + 1, key, scopeArgs, st =>
    match checkForCycle gid key st with
    | (hasCycle, st1) =>
      if hasCycle then
        match getCyclePath gid st1 with
        | (cyclePath, st2) =>
          .panicked ("circular dependency detected: " ++ cyclePath) st2
      else
        let componentScope := match scopeArgs with
          | [] => Scope.Singleton
          | s :: _ => s
        if componentScope = Scope.Transient then
          runBody (IOC env gid fuel) (env.body key) st1
        else if componentScope = Scope.Scoped then
          match st1.currentScope with
          | some ptr =>
            let ctx := (lookupKey st1.scopeHeap ptr).getD { sid := 0, insts := [] }
            match lookupKey ctx.insts key with
            | some inst => .ok inst st1
            | none =>
              match getCurrentResolutionPath gid st1 with
              | (currentPath, st2) =>
                let st3 := updateResolutionPath gid (currentPath ++ [key]) st2
                match runBody (IOC env gid fuel) (env.body key) st3 with
                | .ok inst st4 =>
                  let st5 := updateResolutionPath gid currentPath st4
                  .ok inst (scopeSet ptr key inst st5)
                | .panicked m s => .panicked m s
                | .timeout => .timeout
          | none => runBody (IOC env gid fuel) (env.body key) st1
        else
          match lookupKey st1.instances key with
          | some inst => .ok inst st1
          | none =>
            match getCurrentResolutionPath gid st1 with
            | (currentPath, st2) =>
              let st3 := updateResolutionPath gid (currentPath ++ [key]) st2
              match runBody (IOC env gid fuel) (env.body key) st3 with
              | .ok inst st4 =>
                let st5 := updateResolutionPath gid currentPath st4
                match lookupKey st5.instances key with
                | some existing => .ok existing st5
                | none =>
                  .ok inst
                    { st5 with
                      instances := setKey st5.instances key inst,
                      types := match lookupKey st5.types key with
                        | some _ => st5.types
                        | none => setKey st5.types key (env.tyName key),
                      scopes := setKey st5.scopes key componentScope }
              | .panicked m s => .panicked m s
              | .timeout => .timeout

/-- `n` successive top-level `IOC(f)` calls on one goroutine, collecting
the returned instances (`none` as soon as one call panics or times out). -/
def iocCalls (env : FEnv) (gid fuel key : Nat) :
    Nat → GState → Option (List Nat × GState)
  | 0, st => some ([], st)
  | n + 1, st =>
    match IOC env gid fuel key [] st with
    | .ok i st1 =>
      match iocCalls env gid fuel key n st1 with
      | some (l, st2) => some (i :: l, st2)
      | none => none
    | _ => none

/-- `NewScopeContext`: bump the scope counter and allocate a fresh
`*ScopeContext` on the heap with an empty instance map. -/
def NewScopeContext (st : GState) : Nat × GState :=
  let counter := st.scopeCounter + 1
  let ptr := st.nextPtr
  (ptr, { st with
            scopeCounter := counter,
            nextPtr := ptr + 1,
            scopeHeap := setKey st.scopeHeap ptr { sid := counter, insts := [] } })

/-- `BeginScope`: remember the previously active context, activate a fresh
one, and hand the remembered pointer to the cleanup closure.  The returned
`Option Nat` is exactly the `previousScope` value that the source's
returned closure captures. -/
def BeginScope (st : GState) : Option Nat × GState :=
  let prev := st.currentScope
  match NewScopeContext st with
  | (ptr, st1) => (prev, { st1 with currentScope := some ptr })

/-- `ScopeContext.Cleanup` on the heap object behind `ptr`: replace its
instance map by a fresh empty one. -/
def cleanupContext (ptr : Nat) (st : GState) : GState :=
  match lookupKey st.scopeHeap ptr with
  | some ctx => { st with scopeHeap := setKey st.scopeHeap ptr { ctx with insts := [] } }
  | none => st

/-- The body of the closure `BeginScope` returns, with `prev` the captured
`previousScope`: `Cleanup` whatever context is active at call time, then
restore `prev` as the active context. -/
def cleanupRun (prev : Option Nat) (st : GState) : GState :=
  let st1 := match st.currentScope with
    | some ptr => cleanupContext ptr st
    | none => st
  { st1 with currentScope := prev }

/-- `ClearInstances` (src/gioc.go:837-872) restricted to the modelled
state: empty all store maps, drop every per-goroutine resolution path,
`Cleanup` the active scope context if any and deactivate it. -/
def ClearInstances (st : GState) : GState :=
  let st1 := { st with
    instances := ([] : List (Nat × Nat)),
    types := ([] : List (Nat × String)),
    scopes := ([] : List (Nat × Scope)),
    paths := ([] : List (Nat × List Nat)) }
  match st1.currentScope with
  | some ptr => { cleanupContext ptr st1 with currentScope := none }
  | none => st1

/-- `GetInstanceCount`: `len(instances)`. -/
def GetInstanceCount (st : GState) : Nat :=
  st.instances.length

/-- `GetActiveScope`: `""` when no scope is active, otherwise the active
context's id (rendered from the unique counter; the source additionally
embeds a wall-clock timestamp, which the model drops). -/
def GetActiveScope (st : GState) : String :=
  match st.currentScope with
  | none => ""
  | some ptr =>
    match lookupKey st.scopeHeap ptr with
    | some ctx => "scope-" ++ toString ctx.sid
    | none => ""

/-- The cycle-trace rendering as claim C9 words it (for comparison with
`getCyclePath`): locate the first occurrence of the repeated key — the key
whose re-entry triggered the cycle — and render the sub-sequence from that
position to the end of the path. -/
def claimCycleRender (trigger gid : Nat) (st : GState) : String :=
  let path := pathOf st gid
  let cycleStart := path.findIdx (fun k => k = trigger)
  "[" ++ " ".intercalate ((path.drop cycleStart).map (renderKey st)) ++ "]"

/-! ### Association-list lemmas -/

theorem lookupKey_setKey_self {α : Type} (l : List (Nat × α)) (k : Nat) (v : α) :
    lookupKey (setKey l k v) k = some v := by
  induction l with
  | nil => simp [setKey, lookupKey]
  | cons hd tl ih =>
    obtain ⟨k1, v1⟩ := hd
    by_cases h : k1 = k
    · simp [setKey, h, lookupKey]
    · simp [setKey, h, lookupKey, ih]

theorem lookupKey_setKey_ne {α : Type} (l : List (Nat × α)) (k1 k : Nat) (v : α)
    (h : k1 ≠ k) : lookupKey (setKey l k1 v) k = lookupKey l k := by
  induction l with
  | nil => simp [setKey, lookupKey, h]
  | cons hd tl ih =>
    obtain ⟨k2, v2⟩ := hd
    by_cases h2 : k2 = k1
    · subst h2
      simp [setKey, lookupKey, h]
    · simp [setKey, h2, lookupKey, ih]

theorem setKey_setKey_self {α : Type} (l : List (Nat × α)) (k : Nat) (v1 v2 : α) :
    setKey (setKey l k v1) k v2 = setKey l k v2 := by
  induction l with
  | nil => simp [setKey]
  | cons hd tl ih =>
    obtain ⟨k1, w⟩ := hd
    by_cases h : k1 = k
    · simp [setKey, h]
    · simp [setKey, h, ih]

/-! ### Small stepping lemmas for the interpreter -/

theorem checkForCycle_of_lookup {st : GState} {gid : Nat} {p : List Nat} (key : Nat)
    (hp : lookupKey st.paths gid = some p) :
    checkForCycle gid key st = (p.contains key, st) := by
  simp [checkForCycle, getCurrentResolutionPath, hp]

theorem contains_eq_false_of_not_mem {p : List Nat} {k : Nat} (h : k ∉ p) :
    p.contains k = false := by
  simp [List.contains, h]

/-- A Singleton resolution that finds the key in the store returns the
cached instance and leaves the state untouched. -/
theorem IOC_cache_hit (env : FEnv) (gid fuel key : Nat) (st : GState) (p : List Nat) (v : Nat)
    (hp : lookupKey st.paths gid = some p) (hk : key ∉ p)
    (hv : lookupKey st.instances key = some v) :
    IOC env gid (fuel + 1) key [] st = .ok v st := by
  have hc : p.contains key = false := contains_eq_false_of_not_mem hk
  simp [IOC, checkForCycle_of_lookup key hp, hc, hk, hv]

/-- A Singleton resolution of a dependency-free factory on an uncached key
with an empty resolution path: invoke the factory, allocate a fresh
instance, store it with its type descriptor and lifetime, restore the
path. -/
theorem IOC_first_leaf (env : FEnv) (gid fuel key : Nat) {st : GState}
    (hb : env.body key = .ret)
    (hp : lookupKey st.paths gid = some [])
    (hi : lookupKey st.instances key = none) :
    IOC env gid (fuel + 1) key [] st =
      .ok st.nextInst
        { st with
          instances := setKey st.instances key st.nextInst,
          types := match lookupKey st.types key with
            | some _ => st.types
            | none => setKey st.types key (env.tyName key),
          scopes := setKey st.scopes key Scope.Singleton,
          paths := setKey st.paths gid [],
          nextInst := st.nextInst + 1 } := by
  simp [IOC, checkForCycle_of_lookup key hp, hi, getCurrentResolutionPath, hp,
    updateResolutionPath, hb, runBody, lookupKey_setKey_self, setKey_setKey_self]

/-- Repeated cache hits: every one of `n` further calls returns the cached
instance with the state unchanged. -/
theorem iocCalls_hit (env : FEnv) (gid fuel key : Nat) (st : GState) (p : List Nat) (v : Nat)
    (hp : lookupKey st.paths gid = some p) (hk : key ∉ p)
    (hv : lookupKey st.instances key = some v) :
    ∀ n, iocCalls env gid (fuel + 1) key n st = some (List.replicate n v, st) := by
  intro n
  induction n with
  | zero => simp [iocCalls]
  | succ m ih =>
    simp [iocCalls, IOC_cache_hit env gid fuel key st p v hp hk hv, ih, List.replicate_succ]

/-- C1: for every factory `f` and any `n ≥ 2` calls of `IOC(f)` with the
default (Singleton) lifetime, all `n` results are the identical instance:
the first call invokes `f` and stores the result in the singleton store,
and every subsequent call returns that stored instance. -/
theorem C1_singleton_idempotent (env : FEnv) (gid fuel key n : Nat) (st : GState)
    (hb : env.body key = .ret)
    (hp : lookupKey st.paths gid = some [])
    (hi : lookupKey st.instances key = none)
    (hn : 2 ≤ n) :
    ∃ st1, iocCalls env gid (fuel + 1) key n st
        = some (List.replicate n st.nextInst, st1) ∧
      lookupKey st1.instances key = some st.nextInst := by
  obtain ⟨m, rfl⟩ : ∃ m, n = m + 1 := ⟨n - 1, by omega⟩
  have hrest := iocCalls_hit env gid fuel key
    { st with
      instances := setKey st.instances key st.nextInst,
      types := match lookupKey st.types key with
        | some _ => st.types
        | none => setKey st.types key (env.tyName key),
      scopes := setKey st.scopes key Scope.Singleton,
      paths := setKey st.paths gid [],
      nextInst := st.nextInst + 1 }
    [] st.nextInst (lookupKey_setKey_self ..) (by simp) (lookupKey_setKey_self ..) m
  refine ⟨{ st with
      instances := setKey st.instances key st.nextInst,
      types := match lookupKey st.types key with
        | some _ => st.types
        | none => setKey st.types key (env.tyName key),
      scopes := setKey st.scopes key Scope.Singleton,
      paths := setKey st.paths gid [],
      nextInst := st.nextInst + 1 }, ?_, lookupKey_setKey_self ..⟩
  rw [iocCalls, IOC_first_leaf env gid fuel key hb hp hi]
  simp [hrest, List.replicate_succ]

/-! ### Concrete fixtures for witnesses and counterexamples -/

/-- A dependency-free factory environment. -/
def envLeaf : FEnv :=
  { body := fun _ => .ret, tyName := fun k => "T" ++ toString k }

/-- The mutually recursive factory pair A→B→A on keys 1 and 2: the factory
of key 1 resolves key 2 via `IOC`, whose factory resolves key 1 via `IOC`,
both with the default Singleton lifetime. -/
def envCyc : FEnv :=
  { body := fun k =>
      if k = 1 then .callThen 2 [] .ret
      else if k = 2 then .callThen 1 [] .ret
      else .ret,
    tyName := fun k => "T" ++ toString k }

/-- The acyclic factory chain A→B→C on keys 1, 2, 3. -/
def envChain : FEnv :=
  { body := fun k =>
      if k = 1 then .callThen 2 [] .ret
      else if k = 2 then .callThen 3 [] .ret
      else .ret,
    tyName := fun k => "T" ++ toString k }

/-- Fresh container state whose goroutine 0 already has an (empty)
resolution-path entry. -/
def st0 : GState :=
  { instances := [], types := [], scopes := [], paths := [(0, [])],
    scopeHeap := [], currentScope := none, scopeCounter := 0,
    nextPtr := 0, nextInst := 0 }

/-- `st0` during an in-progress resolution of key 1 on goroutine 0 (key 1
is on the goroutine's resolution path). -/
def stInProgress : GState := { st0 with paths := [(0, [1])] }

/-- The state after one Singleton resolution of key 1 from `st0`. -/
def stAfterOne : GState :=
  { st0 with
    instances := [(1, 0)], types := [(1, "T1")],
    scopes := [(1, Scope.Singleton)], nextInst := 1 }

/-- Witness for C1: three Singleton calls on key 1 from the fresh state
all return instance 0, which the store then holds for key 1. -/
theorem C1_witness :
    ∃ st1, iocCalls envLeaf 0 2 1 3 st0 = some (List.replicate 3 st0.nextInst, st1) ∧
      lookupKey st1.instances 1 = some st0.nextInst :=
  C1_singleton_idempotent envLeaf 0 1 1 3 st0 rfl rfl rfl (by decide)

/-! ### Path restoration on successful resolutions -/

theorem pathOf_updateResolutionPath (gid : Nat) (p : List Nat) (st : GState) :
    pathOf (updateResolutionPath gid p st) gid = p := by
  simp [pathOf, updateResolutionPath, lookupKey_setKey_self]

theorem pathOf_scopeSet (ptr k i : Nat) (st : GState) (gid : Nat) :
    pathOf (scopeSet ptr k i st) gid = pathOf st gid := by
  unfold scopeSet
  cases lookupKey st.scopeHeap ptr <;> simp [pathOf]

/-- If every call made by a factory body restores the caller's
resolution path on normal return, so does the body as a whole. -/
theorem runBody_pathOf (gid : Nat) (call : Nat → List Scope → GState → Res Nat)
    (hcall : ∀ k args st v st1, call k args st = .ok v st1 →
      pathOf st1 gid = pathOf st gid) :
    ∀ body st v st1, runBody call body st = .ok v st1 →
      pathOf st1 gid = pathOf st gid := by
  intro body
  induction body with
  | ret =>
    intro st v st1 h
    simp [runBody] at h
    rw [← h.2]
    simp [pathOf]
  | callThen k args rest ih =>
    intro st v st1 h
    rw [runBody] at h
    cases hc : call k args st with
    | ok w st2 =>
      rw [hc] at h
      exact (ih st2 v st1 h).trans (hcall k args st w st2 hc)
    | panicked m s => rw [hc] at h; simp at h
    | timeout => rw [hc] at h; simp at h


/-! ### A step reformulation of `IOC` for reasoning

`iocStep env gid fuel key args p st` is the body of `IOC` at fuel
`fuel + 1` specialised to the situation in which the calling goroutine's
path entry exists and holds `p` — the state of every reachable execution
after the initial `getCurrentResolutionPath` has run.  The two bridge
lemmas below prove it coincides with `IOC`. -/

/-- The string `getCyclePath` computes for path value `p`. -/
def cyclePathOfList (p : List Nat) (st : GState) : String :=
  if p.isEmpty then "empty path"
  else
    let last := p.getLastD 0
    let cycleStart := p.findIdx (fun k => k = last)
    "[" ++ " ".intercalate ((p.drop cycleStart).map (renderKey st)) ++ "]"

theorem getCyclePath_of_lookup (gid : Nat) {st : GState} {p : List Nat}
    (hp : lookupKey st.paths gid = some p) :
    getCyclePath gid st = (cyclePathOfList p st, st) := by
  simp only [getCyclePath, getCurrentResolutionPath, hp, cyclePathOfList]
  split <;> rfl

def iocStep (env : FEnv) (gid fuel key : Nat) (args : List Scope)
    (p : List Nat) (st : GState) : Res Nat :=
  if p.contains key then
    .panicked ("circular dependency detected: " ++ cyclePathOfList p st) st
  else
    let componentScope := match args with
      | [] => Scope.Singleton
      | s :: _ => s
    if componentScope = Scope.Transient then
      runBody (IOC env gid fuel) (env.body key) st
    else if componentScope = Scope.Scoped then
      match st.currentScope with
      | some ptr =>
        let ctx := (lookupKey st.scopeHeap ptr).getD { sid := 0, insts := [] }
        match lookupKey ctx.insts key with
        | some inst => .ok inst st
        | none =>
          let st3 := updateResolutionPath gid (p ++ [key]) st
          match runBody (IOC env gid fuel) (env.body key) st3 with
          | .ok inst st4 =>
            .ok inst (scopeSet ptr key inst (updateResolutionPath gid p st4))
          | .panicked m s => .panicked m s
          | .timeout => .timeout
      | none => runBody (IOC env gid fuel) (env.body key) st
    else
      match lookupKey st.instances key with
      | some inst => .ok inst st
      | none =>
        let st3 := updateResolutionPath gid (p ++ [key]) st
        match runBody (IOC env gid fuel) (env.body key) st3 with
        | .ok inst st4 =>
          let st5 := updateResolutionPath gid p st4
          match lookupKey st5.instances key with
          | some existing => .ok existing st5
          | none =>
            .ok inst
              { st5 with
                instances := setKey st5.instances key inst,
                types := match lookupKey st5.types key with
                  | some _ => st5.types
                  | none => setKey st5.types key (env.tyName key),
                scopes := setKey st5.scopes key componentScope }
        | .panicked m s => .panicked m s
        | .timeout => .timeout

theorem IOC_succ_of_lookup (env : FEnv) (gid fuel key : Nat) (args : List Scope)
    {st : GState} {p : List Nat} (hp : lookupKey st.paths gid = some p) :
    IOC env gid (fuel + 1) key args st = iocStep env gid fuel key args p st := by
  rw [IOC.eq_def]
  simp only [checkForCycle, getCurrentResolutionPath, hp,
    getCyclePath_of_lookup gid hp, iocStep]

theorem IOC_succ_of_none (env : FEnv) (gid fuel key : Nat) (args : List Scope)
    {st : GState} (hp : lookupKey st.paths gid = none) :
    IOC env gid (fuel + 1) key args st =
      iocStep env gid fuel key args [] { st with paths := setKey st.paths gid [] } := by
  rw [IOC.eq_def]
  have hp2 : lookupKey ({ st with paths := setKey st.paths gid [] } : GState).paths gid
      = some [] := lookupKey_setKey_self ..
  simp only [checkForCycle, getCurrentResolutionPath, hp, lookupKey_setKey_self,
    getCyclePath_of_lookup gid hp2, iocStep]

theorem pathOf_eq_of_lookup {st : GState} {gid : Nat} {p : List Nat}
    (hp : lookupKey st.paths gid = some p) : pathOf st gid = p := by
  simp [pathOf, hp]

/-- One `iocStep` restores the goroutine's path on normal return, assuming
recursive calls do. -/
theorem iocStep_pathOf (env : FEnv) (gid f key : Nat) (args : List Scope)
    (p : List Nat) (st : GState) (hp : lookupKey st.paths gid = some p)
    (ih : ∀ key args st v st1, IOC env gid f key args st = .ok v st1 →
      pathOf st1 gid = pathOf st gid) :
    ∀ v st1, iocStep env gid f key args p st = .ok v st1 →
      pathOf st1 gid = pathOf st gid := by
  intro v st1 h
  rw [iocStep.eq_def] at h
  by_cases hck : p.contains key = true
  · rw [if_pos hck] at h
    simp at h
  · rw [if_neg hck] at h
    rcases hcsv : (match args with | [] => Scope.Singleton | s :: _ => s) with _ | _ | _ <;>
      simp only [hcsv, reduceCtorEq, if_false, if_pos rfl, if_true] at h
    · -- Singleton
      rcases hi : lookupKey st.instances key with _ | inst0 <;> simp only [hi] at h
      · rcases hr : runBody (IOC env gid f) (env.body key)
            (updateResolutionPath gid (p ++ [key]) st) with ⟨inst, st4⟩ | ⟨m, s⟩ | _ <;>
          simp only [hr] at h
        · rcases hdc : lookupKey (updateResolutionPath gid p st4).instances key
              with _ | existing <;> simp only [hdc] at h
          · simp only [Res.ok.injEq] at h
            rw [← h.2]
            simp [pathOf, updateResolutionPath, lookupKey_setKey_self, hp]
          · simp only [Res.ok.injEq] at h
            rw [← h.2]
            simp [pathOf, updateResolutionPath, lookupKey_setKey_self, hp]
        · simp at h
        · simp at h
      · simp only [Res.ok.injEq] at h
        rw [← h.2]
    · -- Transient
      exact runBody_pathOf gid _ ih (env.body key) st v st1 h
    · -- Scoped
      rcases hsc : st.currentScope with _ | ptr <;> simp only [hsc] at h
      · exact runBody_pathOf gid _ ih (env.body key) st v st1 h
      · rcases hctx : lookupKey ((lookupKey st.scopeHeap ptr).getD
            { sid := 0, insts := [] }).insts key with _ | inst0 <;> simp only [hctx] at h
        · rcases hr : runBody (IOC env gid f) (env.body key)
              (updateResolutionPath gid (p ++ [key]) st) with ⟨inst, st4⟩ | ⟨m, s⟩ | _ <;>
            simp only [hr] at h
          · simp only [Res.ok.injEq] at h
            rw [← h.2]
            rw [pathOf_scopeSet, pathOf_updateResolutionPath, pathOf_eq_of_lookup hp]
          · simp at h
          · simp at h
        · simp only [Res.ok.injEq] at h
          rw [← h.2]

/-- Every `IOC` resolution that returns normally restores the calling
goroutine's resolution path to its value before the call. -/
theorem IOC_pathOf (env : FEnv) (gid : Nat) :
    ∀ fuel key args st v st1, IOC env gid fuel key args st = .ok v st1 →
      pathOf st1 gid = pathOf st gid := by
  intro fuel
  induction fuel with
  | zero => intro key args st v st1 h; simp [IOC] at h
  | succ f ih =>
    intro key args st v st1 h
    rcases hp : lookupKey st.paths gid with _ | p
    · rw [IOC_succ_of_none env gid f key args hp] at h
      have h2 := iocStep_pathOf env gid f key args []
        { st with paths := setKey st.paths gid [] } (lookupKey_setKey_self ..) ih v st1 h
      rw [h2]
      simp [pathOf, lookupKey_setKey_self, hp]
    · rw [IOC_succ_of_lookup env gid f key args hp] at h
      exact iocStep_pathOf env gid f key args p st hp ih v st1 h

/-- C2 counterexample: under the A→B→A factory pair a Singleton resolution
of key 1 on goroutine 0 fails (the cycle panic propagates), yet the
goroutine's resolution path is NOT restored to its prior state: it was
`[]` before the call and is left as `[1, 2]` after the failure, so the
claim's "restored on every exit path, including when the factory
fails/panics" is false on the code (the push/pop around `fn()` is not run
on the panic path — there is no defer). -/
theorem C2_counterexample :
    IOC envCyc 0 5 1 [] st0 =
      .panicked "circular dependency detected: [unknown(2)]"
        { st0 with paths := [(0, [1, 2])] } ∧
    pathOf st0 0 = [] ∧
    pathOf ({ st0 with paths := [(0, [1, 2])] } : GState) 0 = [1, 2] :=
  ⟨by decide, by decide, by decide⟩

/-- C2 (amended): on every resolution (any lifetime) that returns
normally, the calling goroutine's resolution path is restored to exactly
its prior state; but when the factory fails (panics), the panic propagates
without restoring the path — the keys pushed by the failed resolution
remain on it, as the concrete A→B→A failure shows (path grows from `[]` to
`[1, 2]`). -/
theorem C2_path_restoration (env : FEnv) (gid : Nat) :
    (∀ fuel key args st v st1, IOC env gid fuel key args st = .ok v st1 →
        pathOf st1 gid = pathOf st gid) ∧
    (∃ msg stF, IOC envCyc 0 5 1 [] st0 = .panicked msg stF ∧
        pathOf st0 0 = [] ∧ pathOf stF 0 = [1, 2]) := by
  refine ⟨IOC_pathOf env gid,
    ⟨"circular dependency detected: [unknown(2)]",
      { st0 with paths := [(0, [1, 2])] }, by decide, by decide, by decide⟩⟩

/-- Witness for C2 (amended): the restoration part applied at a concrete
successful Singleton resolution. -/
theorem C2_witness : pathOf stAfterOne 0 = pathOf st0 0 :=
  (C2_path_restoration envLeaf 0).1 2 1 [] st0 0 stAfterOne (by decide)

theorem contains_eq_true_of_mem {p : List Nat} {k : Nat} (h : k ∈ p) :
    p.contains k = true := by
  simp [List.contains, h]

/-- `iocStep` when the key is already on the path: the cycle panic. -/
theorem iocStep_cycle (env : FEnv) (gid f key : Nat) (args : List Scope)
    (p : List Nat) (st : GState) (hck : key ∈ p) :
    iocStep env gid f key args p st =
      .panicked ("circular dependency detected: " ++ cyclePathOfList p st) st := by
  rw [iocStep.eq_def, if_pos (contains_eq_true_of_mem hck)]

/-- `iocStep` for a default-lifetime call on an uncached key: push, run the
factory, restore, double-check, store. -/
theorem iocStep_singleton_miss (env : FEnv) (gid f key : Nat)
    (p : List Nat) (st : GState) (hck : key ∉ p)
    (hi : lookupKey st.instances key = none) :
    iocStep env gid f key [] p st =
      match runBody (IOC env gid f) (env.body key)
          (updateResolutionPath gid (p ++ [key]) st) with
      | .ok inst st4 =>
        let st5 := updateResolutionPath gid p st4
        match lookupKey st5.instances key with
        | some existing => .ok existing st5
        | none =>
          .ok inst
            { st5 with
              instances := setKey st5.instances key inst,
              types := match lookupKey st5.types key with
                | some _ => st5.types
                | none => setKey st5.types key (env.tyName key),
              scopes := setKey st5.scopes key Scope.Singleton }
      | .panicked m s => .panicked m s
      | .timeout => .timeout := by
  rw [iocStep.eq_def,
    if_neg (by simp [hck])]
  simp only [reduceCtorEq, if_false, hi]

/-- The A→B→A pair panics with the cycle message at every recursion budget
of at least 3. -/
theorem cycle_panics (env : FEnv) (gid a b k : Nat) (st : GState)
    (ha : env.body a = .callThen b [] .ret)
    (hb : env.body b = .callThen a [] .ret)
    (hab : a ≠ b)
    (hp : lookupKey st.paths gid = some [])
    (hia : lookupKey st.instances a = none)
    (hib : lookupKey st.instances b = none) :
    ∃ rest stF, IOC env gid (k + 1 + 1 + 1) a [] st =
      .panicked ("circular dependency detected: " ++ rest) stF := by
  have hp3 : lookupKey (updateResolutionPath gid ([] ++ [a]) st).paths gid
      = some ([] ++ [a]) := by
    simp [updateResolutionPath, lookupKey_setKey_self]
  have hp4 : lookupKey (updateResolutionPath gid (([] ++ [a]) ++ [b])
      (updateResolutionPath gid ([] ++ [a]) st)).paths gid
      = some (([] ++ [a]) ++ [b]) := by
    simp [updateResolutionPath, lookupKey_setKey_self]
  rw [IOC_succ_of_lookup env gid (k + 1 + 1) a [] hp,
    iocStep_singleton_miss env gid (k + 1 + 1) a [] st (by simp) hia, ha]
  simp only [runBody]
  rw [IOC_succ_of_lookup env gid (k + 1) b [] hp3,
    iocStep_singleton_miss env gid (k + 1) b ([] ++ [a])
      (updateResolutionPath gid ([] ++ [a]) st) (by simp [Ne.symm hab])
      (by simp [updateResolutionPath, hib]), hb]
  simp only [runBody]
  rw [IOC_succ_of_lookup env gid k a [] hp4,
    iocStep_cycle env gid k a [] (([] ++ [a]) ++ [b]) _ (by simp)]
  exact ⟨_, _, rfl⟩

/-- The acyclic chain A→B→C resolves normally at every recursion budget of
at least 3. -/
theorem chain_resolves (env : FEnv) (gid a b c k : Nat) (st : GState)
    (ha : env.body a = .callThen b [] .ret)
    (hb : env.body b = .callThen c [] .ret)
    (hc : env.body c = .ret)
    (hab : a ≠ b) (hac : a ≠ c) (hbc : b ≠ c)
    (hp : lookupKey st.paths gid = some [])
    (hia : lookupKey st.instances a = none)
    (hib : lookupKey st.instances b = none)
    (hic : lookupKey st.instances c = none) :
    ∃ v stF, IOC env gid (k + 1 + 1 + 1) a [] st = .ok v stF := by
  have hp3 : lookupKey (updateResolutionPath gid ([] ++ [a]) st).paths gid
      = some ([] ++ [a]) := by
    simp [updateResolutionPath, lookupKey_setKey_self]
  have hp4 : lookupKey (updateResolutionPath gid (([] ++ [a]) ++ [b])
      (updateResolutionPath gid ([] ++ [a]) st)).paths gid
      = some (([] ++ [a]) ++ [b]) := by
    simp [updateResolutionPath, lookupKey_setKey_self]
  rw [IOC_succ_of_lookup env gid (k + 1 + 1) a [] hp,
    iocStep_singleton_miss env gid (k + 1 + 1) a [] st (by simp) hia, ha]
  simp only [runBody]
  rw [IOC_succ_of_lookup env gid (k + 1) b [] hp3,
    iocStep_singleton_miss env gid (k + 1) b ([] ++ [a])
      (updateResolutionPath gid ([] ++ [a]) st) (by simp [Ne.symm hab])
      (by simp [updateResolutionPath, hib]), hb]
  simp only [runBody]
  rw [IOC_succ_of_lookup env gid k c [] hp4,
    iocStep_singleton_miss env gid k c (([] ++ [a]) ++ [b])
      (updateResolutionPath gid (([] ++ [a]) ++ [b])
        (updateResolutionPath gid ([] ++ [a]) st))
      (by simp [Ne.symm hac, Ne.symm hbc])
      (by simp [updateResolutionPath, hic]), hc]
  simp only [runBody, updateResolutionPath, hic,
    lookupKey_setKey_ne _ _ _ _ (Ne.symm hbc) ]
  simp only [hib, hic, hia,
    lookupKey_setKey_ne _ _ _ _ (Ne.symm hbc),
    lookupKey_setKey_ne _ _ _ _ (Ne.symm hac),
    lookupKey_setKey_ne _ _ _ _ (Ne.symm hab)]
  exact ⟨_, _, rfl⟩

/-- C3: on a single goroutine, a factory chain A→B→A (A's factory
resolves B via `IOC`, whose factory resolves A via `IOC`, Singleton
lifetimes) always panics with the circular-dependency message before
unbounded recursion — the result is the same panic at every recursion
budget of at least 3, never fuel exhaustion — while a valid acyclic chain
A→B→C never raises it. -/
theorem C3_cycle_detection :
    (∀ (env : FEnv) (gid a b fuel : Nat) (st : GState),
      env.body a = .callThen b [] .ret →
      env.body b = .callThen a [] .ret →
      a ≠ b →
      lookupKey st.paths gid = some [] →
      lookupKey st.instances a = none →
      lookupKey st.instances b = none →
      3 ≤ fuel →
      ∃ rest stF, IOC env gid fuel a [] st =
        .panicked ("circular dependency detected: " ++ rest) stF) ∧
    (∀ (env : FEnv) (gid a b c fuel : Nat) (st : GState),
      env.body a = .callThen b [] .ret →
      env.body b = .callThen c [] .ret →
      env.body c = .ret →
      a ≠ b → a ≠ c → b ≠ c →
      lookupKey st.paths gid = some [] →
      lookupKey st.instances a = none →
      lookupKey st.instances b = none →
      lookupKey st.instances c = none →
      3 ≤ fuel →
      ∃ v stF, IOC env gid fuel a [] st = .ok v stF) := by
  constructor
  · intro env gid a b fuel st ha hb hab hp hia hib hfuel
    obtain ⟨k, rfl⟩ : ∃ k, fuel = k + 1 + 1 + 1 := ⟨fuel - 3, by omega⟩
    exact cycle_panics env gid a b k st ha hb hab hp hia hib
  · intro env gid a b c fuel st ha hb hc hab hac hbc hp hia hib hic hfuel
    obtain ⟨k, rfl⟩ : ∃ k, fuel = k + 1 + 1 + 1 := ⟨fuel - 3, by omega⟩
    exact chain_resolves env gid a b c k st ha hb hc hab hac hbc hp hia hib hic

/-- Witness for C3 on concrete inputs: the 1→2→1 pair panics, the 1→2→3
chain resolves. -/
theorem C3_witness :
    (∃ rest stF, IOC envCyc 0 5 1 [] st0 =
        .panicked ("circular dependency detected: " ++ rest) stF) ∧
    (∃ v stF, IOC envChain 0 5 1 [] st0 = .ok v stF) :=
  ⟨C3_cycle_detection.1 envCyc 0 1 2 5 st0 rfl rfl (by decide) rfl rfl rfl (by decide),
   C3_cycle_detection.2 envChain 0 1 2 3 5 st0 rfl rfl rfl (by decide) (by decide)
     (by decide) rfl rfl rfl rfl (by decide)⟩

/-- C4 counterexample: a Transient resolution of key 1 while key 1 is
already on the calling goroutine's resolution path (e.g. invoked from
inside an in-progress Singleton resolution of the same factory) panics
with the circular-dependency message instead of returning `f()`: the entry
cycle check of `IOC` runs before the lifetime dispatch, so the claim's
"never raises" is false on the code. -/
theorem C4_counterexample :
    IOC envLeaf 0 2 1 [Scope.Transient] stInProgress =
      .panicked "circular dependency detected: [unknown(1)]" stInProgress := by
  decide

/-- C4 (amended): `IOC(f, Transient)` runs the entry cycle check like
every other lifetime — it panics when f's key is already on the calling
goroutine's resolution path; otherwise it returns `factory()` run directly
on the unchanged state: no cache consultation, no store write, no path
bookkeeping. -/
theorem C4_transient_direct (env : FEnv) (gid fuel key : Nat) (st : GState)
    (p : List Nat) (hp : lookupKey st.paths gid = some p) :
    (key ∉ p → IOC env gid (fuel + 1) key [Scope.Transient] st =
        runBody (IOC env gid fuel) (env.body key) st) ∧
    (key ∈ p → ∃ msg, IOC env gid (fuel + 1) key [Scope.Transient] st =
        .panicked msg st) := by
  constructor
  · intro hk
    rw [IOC_succ_of_lookup env gid fuel key [Scope.Transient] hp, iocStep.eq_def,
      if_neg (by simp [hk])]
    rfl
  · intro hk
    rw [IOC_succ_of_lookup env gid fuel key [Scope.Transient] hp,
      iocStep_cycle env gid fuel key [Scope.Transient] p st hk]
    exact ⟨_, rfl⟩

/-- Witness for C4 (amended) at concrete inputs: a free path gives the
direct `factory()` run, an occupied path gives the panic. -/
theorem C4_witness :
    IOC envLeaf 0 2 1 [Scope.Transient] st0 =
      runBody (IOC envLeaf 0 1) (envLeaf.body 1) st0 ∧
    (∃ msg, IOC envLeaf 0 2 1 [Scope.Transient] stInProgress =
      .panicked msg stInProgress) :=
  ⟨(C4_transient_direct envLeaf 0 1 1 st0 [] rfl).1 (by decide),
   (C4_transient_direct envLeaf 0 1 1 stInProgress [1] rfl).2 (by decide)⟩

/-! ### C5 fixtures: BeginScope twice with a scoped instance in the outer
scope -/

/-- State after `BeginScope` from `st0` (scope A at heap pointer 0). -/
def c5s1 : GState :=
  { st0 with
    scopeHeap := [(0, { sid := 1, insts := [] })],
    currentScope := some 0, scopeCounter := 1, nextPtr := 1 }

/-- State after additionally resolving key 1 with Scoped lifetime (the
instance 0 lives in scope A). -/
def c5s2 : GState :=
  { c5s1 with
    scopeHeap := [(0, { sid := 1, insts := [(1, 0)] })], nextInst := 1 }

/-- State after a second `BeginScope` (scope B at heap pointer 1; the
closure this `BeginScope` returns captures `previousScope = some 0`). -/
def c5s3 : GState :=
  { c5s2 with
    scopeHeap := [(0, { sid := 1, insts := [(1, 0)] }), (1, { sid := 2, insts := [] })],
    currentScope := some 1, scopeCounter := 2, nextPtr := 2 }

/-- Updating `currentScope` to the value it already holds is the
identity. -/
theorem GState_set_currentScope_eq (Z : GState) (o : Option Nat)
    (h : Z.currentScope = o) : { Z with currentScope := o } = Z := by
  cases Z
  simp_all

/-- C5 counterexample: run `BeginScope`; resolve a scoped instance in that
scope A; `BeginScope` again (scope B, cleanup closure capturing A); call
the closure once (clears B, restores A — A still holds its instance); call
the same closure a second time: it is NOT a no-op on container state — it
clears the instances of the restored previous scope A. -/
theorem C5_counterexample :
    BeginScope st0 = (none, c5s1) ∧
    IOC envLeaf 0 2 1 [Scope.Scoped] c5s1 = .ok 0 c5s2 ∧
    BeginScope c5s2 = (some 0, c5s3) ∧
    lookupKey (cleanupRun (some 0) c5s3).scopeHeap 0 =
      some { sid := 1, insts := [(1, 0)] } ∧
    cleanupRun (some 0) (cleanupRun (some 0) c5s3) ≠ cleanupRun (some 0) c5s3 ∧
    lookupKey (cleanupRun (some 0) (cleanupRun (some 0) c5s3)).scopeHeap 0 =
      some { sid := 1, insts := [] } :=
  ⟨by decide, by decide, by decide, by decide, by decide, by decide⟩

/-- C5 (amended): calling the cleanup closure twice never changes which
context is active beyond what the first call did; when the closure's
captured previous scope is `none` the second call is a complete no-op; but
when it is `some p` the second call additionally runs `Cleanup` on the
restored previous context `p`, clearing its instances. -/
theorem C5_cleanup_twice (prev : Option Nat) (st : GState) :
    (cleanupRun prev (cleanupRun prev st)).currentScope
      = (cleanupRun prev st).currentScope ∧
    (prev = none → cleanupRun prev (cleanupRun prev st) = cleanupRun prev st) ∧
    (∀ p2, prev = some p2 →
      cleanupRun prev (cleanupRun prev st)
        = cleanupContext p2 (cleanupRun prev st)) := by
  have hcs : ∀ s : GState, (cleanupRun prev s).currentScope = prev := fun s => rfl
  refine ⟨by rw [hcs, hcs], ?_, ?_⟩
  · rintro rfl
    exact GState_set_currentScope_eq (cleanupRun none st) none rfl
  · rintro p2 rfl
    have h2 : (cleanupContext p2 (cleanupRun (some p2) st)).currentScope = some p2 := by
      unfold cleanupContext
      cases lookupKey (cleanupRun (some p2) st).scopeHeap p2 <;> rfl
    exact GState_set_currentScope_eq _ _ h2

/-- Witness for C5 (amended): the `some` case at the concrete nested-scope
state and the `none` case at the fresh state. -/
theorem C5_witness :
    cleanupRun (some 0) (cleanupRun (some 0) c5s3) =
      cleanupContext 0 (cleanupRun (some 0) c5s3) ∧
    cleanupRun none (cleanupRun none st0) = cleanupRun none st0 :=
  ⟨(C5_cleanup_twice (some 0) c5s3).2.2 0 rfl, (C5_cleanup_twice none st0).2.1 rfl⟩

/-! ### C6: reset completeness -/

theorem cleanupContext_instances (ptr : Nat) (st : GState) :
    (cleanupContext ptr st).instances = st.instances := by
  unfold cleanupContext
  cases lookupKey st.scopeHeap ptr <;> rfl

theorem cleanupContext_paths (ptr : Nat) (st : GState) :
    (cleanupContext ptr st).paths = st.paths := by
  unfold cleanupContext
  cases lookupKey st.scopeHeap ptr <;> rfl

theorem cleanupContext_nextInst (ptr : Nat) (st : GState) :
    (cleanupContext ptr st).nextInst = st.nextInst := by
  unfold cleanupContext
  cases lookupKey st.scopeHeap ptr <;> rfl

theorem ClearInstances_instances (st : GState) :
    (ClearInstances st).instances = [] := by
  unfold ClearInstances
  cases st.currentScope <;> simp [cleanupContext_instances]

theorem ClearInstances_paths (st : GState) :
    (ClearInstances st).paths = [] := by
  unfold ClearInstances
  cases st.currentScope <;> simp [cleanupContext_paths]

theorem ClearInstances_currentScope (st : GState) :
    (ClearInstances st).currentScope = none := by
  unfold ClearInstances
  cases st.currentScope <;> rfl

theorem ClearInstances_nextInst (st : GState) :
    (ClearInstances st).nextInst = st.nextInst := by
  unfold ClearInstances
  cases st.currentScope <;> simp [cleanupContext_nextInst]

/-- Like `IOC_first_leaf`, for a goroutine that has no resolution-path
entry yet (the situation right after a reset). -/
theorem IOC_first_leaf_nopath (env : FEnv) (gid fuel key : Nat) (st : GState)
    (hb : env.body key = .ret)
    (hp : lookupKey st.paths gid = none)
    (hi : lookupKey st.instances key = none) :
    IOC env gid (fuel + 1) key [] st =
      .ok st.nextInst
        { st with
          instances := setKey st.instances key st.nextInst,
          types := match lookupKey st.types key with
            | some _ => st.types
            | none => setKey st.types key (env.tyName key),
          scopes := setKey st.scopes key Scope.Singleton,
          paths := setKey st.paths gid [],
          nextInst := st.nextInst + 1 } := by
  rw [IOC_succ_of_none env gid fuel key [] hp,
    iocStep_singleton_miss env gid fuel key []
      { st with paths := setKey st.paths gid [] } (by simp) hi, hb]
  simp only [runBody, updateResolutionPath]
  simp [hi, setKey_setKey_self]

/-- C6: after `ClearInstances` the container is fully cleared —
`GetInstanceCount` is 0, `GetActiveScope` reports no active scope, the
per-goroutine resolution-path map is empty — and a subsequent `IOC(f)`
invokes the factory again (the allocator advances) and returns a
brand-new instance, distinct from any instance cached for f's key before
the reset. -/
theorem C6_reset_completeness (env : FEnv) (gid fuel key : Nat) (st : GState)
    (hb : env.body key = .ret) :
    GetInstanceCount (ClearInstances st) = 0 ∧
    GetActiveScope (ClearInstances st) = "" ∧
    (ClearInstances st).paths = [] ∧
    (∃ st2, IOC env gid (fuel + 1) key [] (ClearInstances st) =
        .ok (ClearInstances st).nextInst st2 ∧
      st2.nextInst = (ClearInstances st).nextInst + 1 ∧
      lookupKey st2.instances key = some (ClearInstances st).nextInst) ∧
    (∀ v, lookupKey st.instances key = some v → v < st.nextInst →
      v ≠ (ClearInstances st).nextInst) := by
  refine ⟨?_, ?_, ClearInstances_paths st, ?_, ?_⟩
  · rw [GetInstanceCount, ClearInstances_instances]
    rfl
  · rw [GetActiveScope.eq_def, ClearInstances_currentScope]
  · refine ⟨_, IOC_first_leaf_nopath env gid fuel key (ClearInstances st) hb
      (by rw [ClearInstances_paths]; rfl)
      (by rw [ClearInstances_instances]; rfl), rfl, lookupKey_setKey_self ..⟩
  · intro v hv hlt
    rw [ClearInstances_nextInst]
    omega

/-- Witness for C6 at the concrete state holding a cached instance 0 for
key 1: the count and scope are cleared and re-resolution builds the
distinct fresh instance 1. -/
theorem C6_witness :
    GetInstanceCount (ClearInstances stAfterOne) = 0 ∧
    GetActiveScope (ClearInstances stAfterOne) = "" ∧
    (0 : Nat) ≠ (ClearInstances stAfterOne).nextInst ∧
    (∃ st2, IOC envLeaf 0 2 1 [] (ClearInstances stAfterOne) =
        .ok (ClearInstances stAfterOne).nextInst st2 ∧
      st2.nextInst = (ClearInstances stAfterOne).nextInst + 1 ∧
      lookupKey st2.instances 1 = some (ClearInstances stAfterOne).nextInst) :=
  ⟨(C6_reset_completeness envLeaf 0 1 1 stAfterOne rfl).1,
   (C6_reset_completeness envLeaf 0 1 1 stAfterOne rfl).2.1,
   (C6_reset_completeness envLeaf 0 1 1 stAfterOne rfl).2.2.2.2 0 rfl (by decide),
   (C6_reset_completeness envLeaf 0 1 1 stAfterOne rfl).2.2.2.1⟩

/-! ### C7: scoped isolation -/

theorem cleanupRun_paths (prev : Option Nat) (st : GState) :
    (cleanupRun prev st).paths = st.paths := by
  unfold cleanupRun
  cases st.currentScope <;> simp [cleanupContext_paths]

theorem cleanupRun_nextInst (prev : Option Nat) (st : GState) :
    (cleanupRun prev st).nextInst = st.nextInst := by
  unfold cleanupRun
  cases st.currentScope <;> simp [cleanupContext_nextInst]

/-- A Scoped resolution that finds the key in the active scope context
returns the stored instance and leaves the state untouched. -/
theorem IOC_scoped_hit (env : FEnv) (gid fuel key : Nat) (st : GState)
    (p : List Nat) (ptr : Nat) (ctx : ScopeContext) (v : Nat)
    (hp : lookupKey st.paths gid = some p) (hk : key ∉ p)
    (hcs : st.currentScope = some ptr)
    (hheap : lookupKey st.scopeHeap ptr = some ctx)
    (hv : lookupKey ctx.insts key = some v) :
    IOC env gid (fuel + 1) key [Scope.Scoped] st = .ok v st := by
  rw [IOC_succ_of_lookup env gid fuel key [Scope.Scoped] hp, iocStep.eq_def,
    if_neg (by simp [hk]), hcs]
  simp [hheap, hv]

/-- A Scoped resolution with an active scope context not yet holding the
key, for a dependency-free factory: push the key, construct a fresh
instance, restore the path, store the instance into the active context. -/
theorem IOC_scoped_miss_leaf (env : FEnv) (gid fuel key : Nat) (st : GState)
    (p : List Nat) (ptr : Nat) (ctx : ScopeContext)
    (hb : env.body key = .ret)
    (hp : lookupKey st.paths gid = some p) (hk : key ∉ p)
    (hcs : st.currentScope = some ptr)
    (hheap : lookupKey st.scopeHeap ptr = some ctx)
    (hnone : lookupKey ctx.insts key = none) :
    IOC env gid (fuel + 1) key [Scope.Scoped] st =
      .ok st.nextInst
        { st with
          paths := setKey st.paths gid p,
          scopeHeap := setKey st.scopeHeap ptr
            { ctx with insts := setKey ctx.insts key st.nextInst },
          nextInst := st.nextInst + 1 } := by
  rw [IOC_succ_of_lookup env gid fuel key [Scope.Scoped] hp, iocStep.eq_def,
    if_neg (by simp [hk]), hcs]
  simp only [hheap, Option.getD_some, hnone, hb, reduceCtorEq, if_false, if_pos rfl,
    updateResolutionPath, runBody, scopeSet, setKey_setKey_self, lookupKey_setKey_self]
  simp [hcs]

/-- C7: all `IOC(f, Scoped)` calls between one `BeginScope` and its
cleanup return the identical instance — the first call constructs and
stores it in the active scope context, the second call returns the stored
one without touching the state — and the instance obtained in a second,
non-overlapping scope is a distinct one. -/
theorem C7_scoped_isolation (env : FEnv) (gid k f1 f2 f3 : Nat) (st : GState)
    (hb : env.body k = .ret)
    (hp : lookupKey st.paths gid = some []) :
    ∃ s2, IOC env gid (f1 + 1) k [Scope.Scoped] (BeginScope st).2 =
        .ok st.nextInst s2 ∧
      IOC env gid (f2 + 1) k [Scope.Scoped] s2 = .ok st.nextInst s2 ∧
      (∃ s5, IOC env gid (f3 + 1) k [Scope.Scoped]
          (BeginScope (cleanupRun (BeginScope st).1 s2)).2 =
        .ok (st.nextInst + 1) s5) ∧
      st.nextInst + 1 ≠ st.nextInst := by
  refine ⟨_, IOC_scoped_miss_leaf env gid f1 k (BeginScope st).2 [] st.nextPtr
      { sid := st.scopeCounter + 1, insts := [] } hb hp (by simp)
      rfl (lookupKey_setKey_self ..) rfl, ?_, ?_, by omega⟩
  · exact IOC_scoped_hit env gid f2 k _ [] st.nextPtr
      { sid := st.scopeCounter + 1, insts := setKey [] k st.nextInst } st.nextInst
      (lookupKey_setKey_self ..) (by simp) rfl (lookupKey_setKey_self ..)
      (lookupKey_setKey_self ..)
  · set s3 := cleanupRun (BeginScope st).1
      { (BeginScope st).2 with
        paths := setKey ((BeginScope st).2).paths gid [],
        scopeHeap := setKey ((BeginScope st).2).scopeHeap st.nextPtr
          { sid := st.scopeCounter + 1, insts := setKey [] k st.nextInst },
        nextInst := st.nextInst + 1 } with hs3
    have hpath3 : lookupKey ((BeginScope s3).2).paths gid = some [] := by
      show lookupKey s3.paths gid = some []
      rw [hs3, cleanupRun_paths]
      exact lookupKey_setKey_self ..
    have hni3 : s3.nextInst = st.nextInst + 1 := by
      rw [hs3, cleanupRun_nextInst]
    have h5 := IOC_scoped_miss_leaf env gid f3 k (BeginScope s3).2 [] s3.nextPtr
      { sid := s3.scopeCounter + 1, insts := [] } hb hpath3 (by simp)
      rfl (lookupKey_setKey_self ..) rfl
    rw [show ((BeginScope s3).2).nextInst = st.nextInst + 1 from hni3] at h5
    exact ⟨_, h5⟩

/-- Witness for C7 at the fresh concrete state: instance 0 is shared
inside the first scope, instance 1 is built in the second scope. -/
theorem C7_witness :
    ∃ s2, IOC envLeaf 0 2 1 [Scope.Scoped] (BeginScope st0).2 =
        .ok st0.nextInst s2 ∧
      IOC envLeaf 0 2 1 [Scope.Scoped] s2 = .ok st0.nextInst s2 ∧
      (∃ s5, IOC envLeaf 0 2 1 [Scope.Scoped]
          (BeginScope (cleanupRun (BeginScope st0).1 s2)).2 =
        .ok (st0.nextInst + 1) s5) ∧
      st0.nextInst + 1 ≠ st0.nextInst :=
  C7_scoped_isolation envLeaf 0 1 1 1 1 st0 rfl rfl

/-- C8: when no scope is active, `IOC(f, Scoped)` is extensionally the
same computation as `IOC(f, Transient)`: identical result and identical
final state on every input — the deliberate fallback, not an error. -/
theorem C8_scoped_no_scope_transient (env : FEnv) (gid fuel key : Nat) (st : GState)
    (hns : st.currentScope = none) :
    IOC env gid fuel key [Scope.Scoped] st
      = IOC env gid fuel key [Scope.Transient] st := by
  cases fuel with
  | zero => rfl
  | succ f =>
    have step : ∀ (p : List Nat) (st1 : GState), st1.currentScope = none →
        iocStep env gid f key [Scope.Scoped] p st1
          = iocStep env gid f key [Scope.Transient] p st1 := by
      intro p st1 h1
      rw [iocStep.eq_def, iocStep.eq_def]
      by_cases hck : p.contains key = true
      · rw [if_pos hck, if_pos hck]
      · rw [if_neg hck, if_neg hck]
        simp [h1]
    rcases hp : lookupKey st.paths gid with _ | p
    · rw [IOC_succ_of_none env gid f key [Scope.Scoped] hp,
        IOC_succ_of_none env gid f key [Scope.Transient] hp]
      exact step [] _ hns
    · rw [IOC_succ_of_lookup env gid f key [Scope.Scoped] hp,
        IOC_succ_of_lookup env gid f key [Scope.Transient] hp]
      exact step p st hns

/-- Witness for C8 at the fresh concrete state. -/
theorem C8_witness :
    IOC envLeaf 0 2 1 [Scope.Scoped] st0 = IOC envLeaf 0 2 1 [Scope.Transient] st0 :=
  C8_scoped_no_scope_transient envLeaf 0 2 1 st0 rfl

/-! ### C9: cycle-trace rendering -/

/-- The resolution-path state at the moment the A→B→A cycle on keys 1, 2
is detected (trigger key 1 re-entering, path `[1, 2]`, no type names
registered yet). -/
def stC9 : GState := { st0 with paths := [(0, [1, 2])] }

/-- C9 counterexample: `getCyclePath` does not render from the first
occurrence of the repeated (re-entering) key; it renders from the first
occurrence of the path's LAST element.  At the A→B→A detection point the
code renders `[unknown(2)]`, whereas rendering from the trigger key's
first occurrence as the claim words it would give
`[unknown(1) unknown(2)]`; the panic of the actual run carries the code's
rendering. -/
theorem C9_counterexample :
    (getCyclePath 0 stC9).1 = "[unknown(2)]" ∧
    claimCycleRender 1 0 stC9 = "[unknown(1) unknown(2)]" ∧
    (getCyclePath 0 stC9).1 ≠ claimCycleRender 1 0 stC9 ∧
    IOC envCyc 0 5 1 [] st0 =
      .panicked ("circular dependency detected: " ++ (getCyclePath 0 stC9).1) stC9 :=
  ⟨by decide, by decide, by decide, by decide⟩

theorem findIdx_append_singleton {x : Nat} :
    ∀ p : List Nat, x ∉ p →
      (p ++ [x]).findIdx (fun k => k = x) = p.length := by
  intro p
  induction p with
  | nil => simp [List.findIdx_cons]
  | cons a rest ih =>
    intro hx
    have hax : (a = x) = False := by
      simp only [eq_iff_iff, iff_false]
      intro h
      exact hx (h ▸ List.mem_cons_self a rest)
    rw [List.cons_append, List.findIdx_cons]
    simp only [hax, decide_False, cond_false]
    rw [ih (fun h => hx (List.mem_cons_of_mem a h))]
    rfl

/-- C9 (amended): the rendered cycle trace is computed from the calling
goroutine's resolution path by locating the first occurrence of the
path's LAST key — the most recently pushed key, not the key whose
re-entry triggered the cycle — and rendering from that position to the
end; since a resolution path never holds its last key twice, the trace is
exactly the rendering of that last key (its cached type name, or
`unknown(<key>)`). -/
theorem C9_cycle_render (gid : Nat) (st : GState) (p : List Nat) (x : Nat)
    (hp : lookupKey st.paths gid = some (p ++ [x]))
    (hx : x ∉ p) :
    (getCyclePath gid st).1 = "[" ++ renderKey st x ++ "]" := by
  rw [getCyclePath_of_lookup gid hp]
  show cyclePathOfList (p ++ [x]) st = _
  rw [cyclePathOfList.eq_def]
  simp only [List.isEmpty_eq_true, List.append_eq_nil, List.cons_ne_nil, and_false,
    if_false, List.getLastD_concat]
  rw [findIdx_append_singleton p hx, List.drop_left p [x]]
  rfl

/-- Witness for C9 (amended) at the concrete detection state. -/
theorem C9_witness :
    (getCyclePath 0 stC9).1 = "[" ++ renderKey stC9 2 ++ "]" :=
  C9_cycle_render 0 stC9 [1] 2 rfl (by decide)

/-- C10: all lifetime arguments after the first are ignored — `IOC` on
argument list `s :: rest` is the identical computation to `IOC` on `[s]`,
for every environment, state and fuel: same result, same final state. -/
theorem C10_extra_scope_args_ignored (env : FEnv) (gid fuel key : Nat)
    (s : Scope) (rest : List Scope) (st : GState) :
    IOC env gid fuel key (s :: rest) st = IOC env gid fuel key [s] st := by
  cases fuel with
  | zero => rfl
  | succ f => rfl
